import Mathlib

/-!
Verification of the evaluation-environment component of `num_parser2`
(`src/context/mod.rs` and `src/context/settings.rs`).

The component holds user-defined functions and variables plus three
settings (rounding, angle unit, depth limit), and an angle-unit
conversion algorithm that sequences fallible arithmetic on the external
`Value` type.

Embedding choices:
* The external `Value` type and its fallible arithmetic (`Div` and `Mul`
  returning `EvalResult`) are not part of this component's sources; they
  are modelled abstractly as a structure `ValueOps` of operations
  returning `Except E V`, together with the three constants the
  algorithm builds with `Value::from` (180, 0.5 and `consts::PI`).
  Rust's `match r { Ok(v) => v, Err(e) => return Err(e) }` early-return
  pattern is rendered as the corresponding `match` on `Except`.
* `HashMap<String, _>` is modelled as an association list with unique
  keys: `insert` removes any previous entry for the key and conses the
  new one (last write wins, as `HashMap::insert`), `find` scans for the
  key. Iteration (used by `join_with`) is list order; the HashMap's
  iteration order is unspecified, and no proved statement depends on the
  order chosen.
* The opaque, cloneable expression tree `Box<Expression>` is an
  arbitrary type parameter `Expr`; `Vec<String>` parameter lists are
  `List String`.
-/

/-- Modelled from the spec: the external numeric `Value` type with its
fallible division and multiplication (each returns a value or an
arithmetic error), plus the constants `Value::from(180)`,
`Value::from(0.5)` and `Value::from(consts::PI)` that
`AngleUnit::convert_value` uses. The component sequences but never
implements these operations, so they are abstract here. -/
structure ValueOps (V E : Type) where
  div : V → V → Except E V
  mul : V → V → Except E V
  c180 : V
  cHalf : V
  pi : V

/-- The angle unit to use (`settings.rs`): `Radian`, `Degree` or `Turn`.
`Radian` carries the `#[default]` attribute. -/
inductive AngleUnit where
  | Radian
  | Degree
  | Turn
deriving DecidableEq, Repr

/-- `AngleUnit`'s `#[default]` variant is `Radian`. -/
def AngleUnit.default : AngleUnit := AngleUnit.Radian

/-- The number of decimal places shown (`settings.rs`): `Round(u8)` or
`NoRounding`. The `u8` payload is modelled as `Nat` (no arithmetic is
ever performed on it). -/
inductive Rounding where
  | Round (n : Nat)
  | NoRounding
deriving DecidableEq, Repr

/-- `impl Default for Rounding`: `Rounding::Round(8)`. -/
def Rounding.default : Rounding := Rounding.Round 8

/-- The depth limit (`settings.rs`): `Limit(u32)` or `NoLimit`. The
`u32` payload is modelled as `Nat`. -/
inductive DepthLimit where
  | Limit (n : Nat)
  | NoLimit
deriving DecidableEq, Repr

/-- `impl Default for DepthLimit`: `DepthLimit::Limit(49)`. -/
def DepthLimit.default : DepthLimit := DepthLimit.Limit 49

/-- `AngleUnit::convert_value(self, to, value)` from `settings.rs`,
translated match-for-match. The first `match self` computes
`as_radians` (each failing step's `return Err(e)` becomes the error
branch of the surrounding `match`); the final `Ok(match to ...)` block
converts `as_radians` to the target unit. -/
def AngleUnit.convert_value {V E : Type} (ops : ValueOps V E)
    (self toUnit : AngleUnit) (value : V) : Except E V :=
  match
    (match self with
     | AngleUnit.Radian => Except.ok value
     | AngleUnit.Degree =>
       match ops.div value ops.c180 with
       | Except.ok division_value =>
         match ops.mul division_value ops.pi with
         | Except.ok result_value => Except.ok result_value
         | Except.error e => Except.error e
       | Except.error e => Except.error e
     | AngleUnit.Turn =>
       match ops.div value ops.cHalf with
       | Except.ok division_value =>
         match ops.div division_value ops.pi with
         | Except.ok result_value => Except.ok result_value
         | Except.error e => Except.error e
       | Except.error e => Except.error e)
  with
  | Except.error e => Except.error e
  | Except.ok as_radians =>
    match toUnit with
    | AngleUnit.Radian => Except.ok as_radians
    | AngleUnit.Degree =>
      match ops.div as_radians ops.pi with
      | Except.ok division_value =>
        match ops.mul division_value ops.c180 with
        | Except.ok v => Except.ok v
        | Except.error e => Except.error e
      | Except.error e => Except.error e
    | AngleUnit.Turn =>
      match ops.div as_radians ops.pi with
      | Except.ok division_value =>
        match ops.mul division_value ops.cHalf with
        | Except.ok v => Except.ok v
        | Except.error e => Except.error e
      | Except.error e => Except.error e

/-- The spec's step 1 (§4.2), written from its words: normalize `value`
in unit `from` to radians. `Radian`: the value itself, no arithmetic;
`Degree`: `(value / 180) * π`; `Turn`: `(value / 0.5) / π`; each step
through the fallible operations. -/
def specNormalize {V E : Type} (ops : ValueOps V E)
    (fromUnit : AngleUnit) (value : V) : Except E V :=
  match fromUnit with
  | AngleUnit.Radian => Except.ok value
  | AngleUnit.Degree => (ops.div value ops.c180).bind fun d => ops.mul d ops.pi
  | AngleUnit.Turn => (ops.div value ops.cHalf).bind fun d => ops.div d ops.pi

/-- The spec's step 2 (§4.2), written from its words: convert
`as_radians` to the target unit. `Radian`: the value itself; `Degree`:
`(as_radians / π) * 180`; `Turn`: `(as_radians / π) * 0.5`. -/
def specToTarget {V E : Type} (ops : ValueOps V E)
    (toUnit : AngleUnit) (as_radians : V) : Except E V :=
  match toUnit with
  | AngleUnit.Radian => Except.ok as_radians
  | AngleUnit.Degree => (ops.div as_radians ops.pi).bind fun d => ops.mul d ops.c180
  | AngleUnit.Turn => (ops.div as_radians ops.pi).bind fun d => ops.mul d ops.cHalf

/-- The spec's two-step conversion: normalization then target
conversion, short-circuiting on the first failure. -/
def specConvert {V E : Type} (ops : ValueOps V E)
    (fromUnit toUnit : AngleUnit) (value : V) : Except E V :=
  (specNormalize ops fromUnit value).bind (specToTarget ops toUnit)

/-- An arithmetic error of the external value type; the spec names
division by zero as the typical case. Only used to instantiate the
abstract `ValueOps`. -/
inductive ArithError where
  | divisionByZero
deriving DecidableEq, Repr

/-- Modelled from the spec: an exact instantiation of the external
`Value` type, closed under the operations `convert_value` performs. A
`PiRat` `⟨q, k⟩` denotes the real number `q * π ^ k`; division and
multiplication of such numbers stay in this form because π is a unit of
the computation (the only constants are 180, 0.5 and π itself).
Division fails exactly on a zero divisor, the spec's degenerate case. -/
structure PiRat where
  q : ℚ
  k : ℤ
deriving DecidableEq, Repr

/-- The `ValueOps` instance on `PiRat`: exact arithmetic on numbers of
the form `q * π ^ k`, failing only on division by zero. -/
def piRatOps : ValueOps PiRat ArithError where
  div a b :=
    if b.q = 0 then Except.error ArithError.divisionByZero
    else Except.ok ⟨a.q / b.q, a.k - b.k⟩
  mul a b := Except.ok ⟨a.q * b.q, a.k + b.k⟩
  c180 := ⟨180, 0⟩
  cHalf := ⟨1/2, 0⟩
  pi := ⟨1, 1⟩

/-- A `ValueOps` instance whose every arithmetic operation fails;
errors are numbered so each operation's error is distinguishable. -/
def failOps : ValueOps Unit Nat where
  div _ _ := Except.error 0
  mul _ _ := Except.error 1
  c180 := ()
  cHalf := ()
  pi := ()

/-- `HashMap<String, α>::get(k).cloned()`: first entry with key `k`, if
any. On maps built by `mapInsert` the key occurs at most once, so
"first" is "the" entry, matching the HashMap. -/
def mapFind {α : Type} : List (String × α) → String → Option α
  | [], _ => none
  | p :: rest, k => if p.1 = k then some p.2 else mapFind rest k

/-- Removal of every entry with key `k`; helper for `mapInsert`. -/
def mapErase {α : Type} : List (String × α) → String → List (String × α)
  | [], _ => []
  | p :: rest, k => if p.1 = k then mapErase rest k else p :: mapErase rest k

/-- `HashMap<String, α>::insert(k, v)`: the new binding replaces any
previous binding of `k` (last write wins, never an error). -/
def mapInsert {α : Type} (m : List (String × α)) (k : String) (v : α) :
    List (String × α) :=
  (k, v) :: mapErase m k

/-- `Context` from `mod.rs`: the two identifier-keyed mappings and the
three settings. The opaque expression tree is the type parameter
`Expr`; a function binding is its `Vec<String>` parameter list paired
with its body. -/
structure Context (Expr : Type) where
  functions : List (String × (List String × Expr))
  vars : List (String × Expr)
  rounding : Rounding
  angle_unit : AngleUnit
  depth_limit : DepthLimit

/-- `impl Default for Context`: empty mappings and the three settings'
defaults. -/
def Context.default (Expr : Type) : Context Expr where
  functions := []
  vars := []
  rounding := Rounding.default
  angle_unit := AngleUnit.default
  depth_limit := DepthLimit.default

/-- `Context::new`: empty mappings with the given settings. -/
def Context.new {Expr : Type} (rounding : Rounding) (angle_unit : AngleUnit)
    (depth_limit : DepthLimit) : Context Expr where
  functions := []
  vars := []
  rounding := rounding
  angle_unit := angle_unit
  depth_limit := depth_limit

/-- `Context::add_function`: insert or overwrite the function binding. -/
def Context.add_function {Expr : Type} (self : Context Expr)
    (identifier : String) (params : List String) (body : Expr) : Context Expr :=
  { self with functions := mapInsert self.functions identifier (params, body) }

/-- `Context::add_variable`: insert or overwrite the variable binding. -/
def Context.add_variable {Expr : Type} (self : Context Expr)
    (identifier : String) (expression : Expr) : Context Expr :=
  { self with vars := mapInsert self.vars identifier expression }

/-- `Context::get_function`: an owned copy of the binding, if any. -/
def Context.get_function {Expr : Type} (self : Context Expr)
    (identifier : String) : Option (List String × Expr) :=
  mapFind self.functions identifier

/-- `Context::get_var`: an owned copy of the binding, if any. -/
def Context.get_var {Expr : Type} (self : Context Expr)
    (identifier : String) : Option Expr :=
  mapFind self.vars identifier

/-- `Context::is_function`: `get_function(identifier).is_some()`. -/
def Context.is_function {Expr : Type} (self : Context Expr)
    (identifier : String) : Bool :=
  (self.get_function identifier).isSome

/-- `Context::is_var`: `get_var(identifier).is_some()`. -/
def Context.is_var {Expr : Type} (self : Context Expr)
    (identifier : String) : Bool :=
  (self.get_var identifier).isSome

/-- `Context::join_with`: iterate over the other context's functions
calling `add_function`, then over its variables calling `add_variable`.
The other context is only read (Rust takes it by shared reference), so
in this pure embedding the result is the updated receiver. -/
def Context.join_with {Expr : Type} (self : Context Expr)
    (context : Context Expr) : Context Expr :=
  let withFuns := context.functions.foldl
    (fun c p => c.add_function p.1 p.2.1 p.2.2) self
  context.vars.foldl (fun c p => c.add_variable p.1 p.2) withFuns

/-- Left-biased choice on `Option`; spells out "the first map that
binds the key wins". -/
def optOr {α : Type} (a b : Option α) : Option α :=
  match a with
  | some v => some v
  | none => b

theorem optOr_none_left {α : Type} (b : Option α) : optOr none b = b := rfl

theorem optOr_assoc {α : Type} (a b c : Option α) :
    optOr (optOr a b) c = optOr a (optOr b c) := by
  cases a <;> rfl

theorem optOr_self_absorb {α : Type} (a b : Option α) :
    optOr a (optOr a b) = optOr a b := by
  cases a <;> rfl

theorem mapFind_mapErase_self {α : Type} (m : List (String × α)) (k : String) :
    mapFind (mapErase m k) k = none := by
  induction m with
  | nil => rfl
  | cons p rest ih =>
    by_cases h : p.1 = k <;> simp [mapErase, mapFind, h, ih]

theorem optOr_none_right {α : Type} (a : Option α) : optOr a none = a := by
  cases a <;> rfl

theorem mapFind_mapErase_ne {α : Type} (m : List (String × α)) (k k' : String)
    (h : k' ≠ k) : mapFind (mapErase m k) k' = mapFind m k' := by
  induction m with
  | nil => rfl
  | cons p rest ih =>
    by_cases hp : p.1 = k
    · have hkk : k ≠ k' := fun hk => h hk.symm
      simp [mapErase, mapFind, hp, hkk, ih]
    · by_cases hpk : p.1 = k' <;> simp [mapErase, mapFind, hp, hpk, h, ih]

theorem mapFind_mapInsert {α : Type} (m : List (String × α)) (k k' : String)
    (v : α) :
    mapFind (mapInsert m k v) k' =
      if k = k' then some v else mapFind m k' := by
  by_cases h : k = k'
  · simp [mapInsert, mapFind, h]
  · have h' : k' ≠ k := fun hk => h hk.symm
    simp [mapInsert, mapFind, h, mapFind_mapErase_ne m k k' h']

theorem mapFind_append {α : Type} (l₁ l₂ : List (String × α)) (k : String) :
    mapFind (l₁ ++ l₂) k = optOr (mapFind l₁ k) (mapFind l₂ k) := by
  induction l₁ with
  | nil => rfl
  | cons p rest ih =>
    by_cases h : p.1 = k <;> simp [mapFind, h, ih, optOr]

/-- Folding `mapInsert` over an entry list: the last entry of the list
with the key wins, and otherwise the starting map answers. The
last-match lookup is expressed as first-match lookup on the reversed
list. -/
theorem mapFind_foldl_insert {α : Type} (l : List (String × α))
    (m0 : List (String × α)) (k : String) :
    mapFind (List.foldl (fun m p => mapInsert m p.1 p.2) m0 l) k =
      optOr (mapFind l.reverse k) (mapFind m0 k) := by
  induction l generalizing m0 with
  | nil => rfl
  | cons p rest ih =>
    have hsingle : mapFind [p] k = if p.1 = k then some p.2 else none := by
      by_cases h : p.1 = k <;> simp [mapFind, h]
    calc mapFind (List.foldl (fun m q => mapInsert m q.1 q.2)
            (mapInsert m0 p.1 p.2) rest) k
        = optOr (mapFind rest.reverse k) (mapFind (mapInsert m0 p.1 p.2) k) :=
          ih (mapInsert m0 p.1 p.2)
      _ = optOr (mapFind rest.reverse k)
            (optOr (mapFind [p] k) (mapFind m0 k)) := by
          rw [mapFind_mapInsert, hsingle]
          by_cases h : p.1 = k <;> simp [h, optOr]
      _ = optOr (mapFind (rest.reverse ++ [p]) k) (mapFind m0 k) := by
          rw [mapFind_append, optOr_assoc]
      _ = optOr (mapFind (p :: rest).reverse k) (mapFind m0 k) := by
          rw [List.reverse_cons]

theorem mapFind_eq_none_of_not_mem {α : Type} (l : List (String × α))
    (k : String) (h : k ∉ l.map Prod.fst) : mapFind l k = none := by
  induction l with
  | nil => rfl
  | cons p rest ih =>
    simp only [List.map_cons, List.mem_cons] at h
    push_neg at h
    have hp : p.1 ≠ k := fun hk => h.1 hk.symm
    simp [mapFind, hp, ih h.2]

/-- With pairwise-distinct keys (the invariant every map built by
`mapInsert` enjoys, matching `HashMap`), first match and last match
agree. -/
theorem mapFind_reverse_of_nodup {α : Type} (l : List (String × α))
    (k : String) (h : (l.map Prod.fst).Nodup) :
    mapFind l.reverse k = mapFind l k := by
  induction l with
  | nil => rfl
  | cons p rest ih =>
    simp only [List.map_cons, List.nodup_cons] at h
    rw [List.reverse_cons, mapFind_append, ih h.2]
    by_cases hp : p.1 = k
    · have hnm : k ∉ rest.map Prod.fst := hp ▸ h.1
      rw [mapFind_eq_none_of_not_mem rest k hnm]
      simp [mapFind, hp, optOr]
    · simp [mapFind, hp, optOr_none_right]

/-- The fold of `add_function` over an entry list only rewrites the
`functions` field, by repeated insertion. -/
theorem foldl_add_function_eq {Expr : Type}
    (l : List (String × (List String × Expr))) (c : Context Expr) :
    List.foldl (fun c p => Context.add_function c p.1 p.2.1 p.2.2) c l =
      { c with functions :=
          List.foldl (fun m p => mapInsert m p.1 p.2) c.functions l } := by
  induction l generalizing c with
  | nil => rfl
  | cons p rest ih =>
    rw [List.foldl_cons, ih]
    simp [Context.add_function]

/-- The fold of `add_variable` over an entry list only rewrites the
`vars` field, by repeated insertion. -/
theorem foldl_add_variable_eq {Expr : Type}
    (l : List (String × Expr)) (c : Context Expr) :
    List.foldl (fun c p => Context.add_variable c p.1 p.2) c l =
      { c with vars :=
          List.foldl (fun m p => mapInsert m p.1 p.2) c.vars l } := by
  induction l generalizing c with
  | nil => rfl
  | cons p rest ih =>
    rw [List.foldl_cons, ih]
    simp [Context.add_variable]

/-- `join_with` in closed form: both mappings are extended by folding
insertion over the other context's entries; the settings are the
receiver's. -/
theorem join_with_eq {Expr : Type} (self other : Context Expr) :
    self.join_with other =
      { self with
        functions := List.foldl (fun m p => mapInsert m p.1 p.2)
          self.functions other.functions,
        vars := List.foldl (fun m p => mapInsert m p.1 p.2)
          self.vars other.vars } := by
  unfold Context.join_with
  rw [foldl_add_function_eq, foldl_add_variable_eq]

theorem get_function_join_with {Expr : Type} (self other : Context Expr)
    (k : String) :
    (self.join_with other).get_function k =
      optOr (mapFind other.functions.reverse k) (self.get_function k) := by
  rw [join_with_eq]
  exact mapFind_foldl_insert other.functions self.functions k

theorem get_var_join_with {Expr : Type} (self other : Context Expr)
    (k : String) :
    (self.join_with other).get_var k =
      optOr (mapFind other.vars.reverse k) (self.get_var k) := by
  rw [join_with_eq]
  exact mapFind_foldl_insert other.vars self.vars k

theorem except_match_id {V E : Type} (r : Except E V) :
    (match r with
     | Except.ok v => Except.ok v
     | Except.error e => Except.error e) = r := by
  cases r <;> rfl

theorem except_match_bind {V E : Type} (r : Except E V) (f : V → Except E V) :
    (match r with
     | Except.ok v => f v
     | Except.error e => Except.error e) = r.bind f := by
  cases r <;> rfl

/-- The translated `convert_value` and the spec's two-step composition
agree on every operation structure, every unit pair and every value;
shared by the conversion theorems below. -/
theorem convert_value_eq_spec {V E : Type} (ops : ValueOps V E)
    (fromUnit toUnit : AngleUnit) (value : V) :
    AngleUnit.convert_value ops fromUnit toUnit value =
      specConvert ops fromUnit toUnit value := by
  cases fromUnit with
  | Radian =>
    cases toUnit with
    | Radian => rfl
    | Degree =>
      simp only [AngleUnit.convert_value, specConvert, specNormalize,
        specToTarget, Except.bind]
      cases hd : ops.div value ops.pi with
      | error e => rfl
      | ok d =>
        simp only []
        cases hm : ops.mul d ops.c180 <;> rfl
    | Turn =>
      simp only [AngleUnit.convert_value, specConvert, specNormalize,
        specToTarget, Except.bind]
      cases hd : ops.div value ops.pi with
      | error e => rfl
      | ok d =>
        simp only []
        cases hm : ops.mul d ops.cHalf <;> rfl
  | Degree =>
    simp only [AngleUnit.convert_value, specConvert, specNormalize,
      specToTarget, Except.bind]
    cases h1 : ops.div value ops.c180 with
    | error e => cases toUnit <;> rfl
    | ok d =>
      simp only []
      cases h2 : ops.mul d ops.pi with
      | error e => cases toUnit <;> rfl
      | ok r =>
        simp only []
        cases toUnit with
        | Radian => rfl
        | Degree =>
          simp only []
          cases hd : ops.div r ops.pi with
          | error e => rfl
          | ok d2 =>
            simp only []
            cases hm : ops.mul d2 ops.c180 <;> rfl
        | Turn =>
          simp only []
          cases hd : ops.div r ops.pi with
          | error e => rfl
          | ok d2 =>
            simp only []
            cases hm : ops.mul d2 ops.cHalf <;> rfl
  | Turn =>
    simp only [AngleUnit.convert_value, specConvert, specNormalize,
      specToTarget, Except.bind]
    cases h1 : ops.div value ops.cHalf with
    | error e => cases toUnit <;> rfl
    | ok d =>
      simp only []
      cases h2 : ops.div d ops.pi with
      | error e => cases toUnit <;> rfl
      | ok r =>
        simp only []
        cases toUnit with
        | Radian => rfl
        | Degree =>
          simp only []
          cases hd : ops.div r ops.pi with
          | error e => rfl
          | ok d2 =>
            simp only []
            cases hm : ops.mul d2 ops.c180 <;> rfl
        | Turn =>
          simp only []
          cases hd : ops.div r ops.pi with
          | error e => rfl
          | ok d2 =>
            simp only []
            cases hm : ops.mul d2 ops.cHalf <;> rfl

/-- C1: the claim expects `convert_value(Turn, Radian, 1) ≈ 2π`, but the
code computes `(1 / 0.5) / π = 2/π` (the value `⟨2, -1⟩`, denoting
`2 * π ^ (-1)`), which is below 1 while `2π` exceeds 6 — not within any
small tolerance. The code's own enum documentation ("a full turn is 2π"
radians) and its comment calling the second `Turn` step a multiplication
show the intended step was `* π`, so this is a bug in the code. -/
theorem convert_value_turn_radian_one :
    AngleUnit.convert_value piRatOps AngleUnit.Turn AngleUnit.Radian ⟨1, 0⟩ =
      Except.ok ⟨2, -1⟩ ∧
    (2 : ℝ) * Real.pi ^ (-1 : ℤ) < 1 ∧ 6 < 2 * Real.pi := by
  refine ⟨by norm_num [AngleUnit.convert_value, piRatOps], ?_, ?_⟩
  · have hpos : (0 : ℝ) < Real.pi := Real.pi_pos
    rw [zpow_neg_one, ← div_eq_mul_inv, div_lt_one hpos]
    linarith [Real.pi_gt_three]
  · linarith [Real.pi_gt_three]

/-- C2: for every operation structure, every unit pair and every value,
`convert_value` computes exactly the spec's two-step formulas
(`specNormalize` then `specToTarget`), each step performed through the
external fallible arithmetic operations. -/
theorem convert_value_follows_spec_formulas {V E : Type} (ops : ValueOps V E)
    (fromUnit toUnit : AngleUnit) (value : V) :
    AngleUnit.convert_value ops fromUnit toUnit value =
      specConvert ops fromUnit toUnit value :=
  convert_value_eq_spec ops fromUnit toUnit value

/-- C3: `convert_value` evaluates its arithmetic steps strictly in the
algorithm's order and propagates the first failing step's exact error.
Each conjunct fixes the outcomes of the steps up to the first failure
and quantifies over everything else — in particular over the behaviour
of every later operation, so none of the remaining steps can influence
(or be needed for) the result. The last two conjuncts use
`convert_value` to `Radian` as the observer of the normalization phase.
-/
theorem convert_value_error_propagation {V E : Type} (ops : ValueOps V E)
    (v : V) :
    (∀ toUnit e, ops.div v ops.c180 = Except.error e →
      AngleUnit.convert_value ops AngleUnit.Degree toUnit v =
        Except.error e) ∧
    (∀ toUnit d e, ops.div v ops.c180 = Except.ok d →
      ops.mul d ops.pi = Except.error e →
      AngleUnit.convert_value ops AngleUnit.Degree toUnit v =
        Except.error e) ∧
    (∀ toUnit e, ops.div v ops.cHalf = Except.error e →
      AngleUnit.convert_value ops AngleUnit.Turn toUnit v =
        Except.error e) ∧
    (∀ toUnit d e, ops.div v ops.cHalf = Except.ok d →
      ops.div d ops.pi = Except.error e →
      AngleUnit.convert_value ops AngleUnit.Turn toUnit v =
        Except.error e) ∧
    (∀ fromUnit r e,
      AngleUnit.convert_value ops fromUnit AngleUnit.Radian v = Except.ok r →
      ops.div r ops.pi = Except.error e →
      AngleUnit.convert_value ops fromUnit AngleUnit.Degree v =
          Except.error e ∧
        AngleUnit.convert_value ops fromUnit AngleUnit.Turn v =
          Except.error e) ∧
    (∀ fromUnit r d e,
      AngleUnit.convert_value ops fromUnit AngleUnit.Radian v = Except.ok r →
      ops.div r ops.pi = Except.ok d →
      (ops.mul d ops.c180 = Except.error e →
        AngleUnit.convert_value ops fromUnit AngleUnit.Degree v =
          Except.error e) ∧
      (ops.mul d ops.cHalf = Except.error e →
        AngleUnit.convert_value ops fromUnit AngleUnit.Turn v =
          Except.error e)) := by
  have hrad : ∀ fromUnit r,
      AngleUnit.convert_value ops fromUnit AngleUnit.Radian v = Except.ok r →
      specNormalize ops fromUnit v = Except.ok r := by
    intro fromUnit r h
    rw [convert_value_eq_spec] at h
    cases hn : specNormalize ops fromUnit v with
    | ok w =>
      rw [specConvert, hn] at h
      simpa [Except.bind, specToTarget] using h
    | error e =>
      rw [specConvert, hn] at h
      simp [Except.bind] at h
  refine ⟨?_, ?_, ?_, ?_, ?_, ?_⟩
  · intro toUnit e h
    rw [convert_value_eq_spec]
    simp [specConvert, specNormalize, h, Except.bind]
  · intro toUnit d e h1 h2
    rw [convert_value_eq_spec]
    simp [specConvert, specNormalize, h1, h2, Except.bind]
  · intro toUnit e h
    rw [convert_value_eq_spec]
    simp [specConvert, specNormalize, h, Except.bind]
  · intro toUnit d e h1 h2
    rw [convert_value_eq_spec]
    simp [specConvert, specNormalize, h1, h2, Except.bind]
  · intro fromUnit r e h1 h2
    have hn := hrad fromUnit r h1
    constructor <;>
      (rw [convert_value_eq_spec];
       simp [specConvert, hn, specToTarget, h2, Except.bind])
  · intro fromUnit r d e h1 h2
    have hn := hrad fromUnit r h1
    constructor <;>
      (intro h3;
       rw [convert_value_eq_spec];
       simp [specConvert, hn, specToTarget, h2, h3, Except.bind])

/-- Witness for C3 at a concrete operation structure whose first
division fails with error 0: the Degree → Radian conversion returns
exactly that error. -/
theorem convert_value_error_propagation_witness :
    AngleUnit.convert_value failOps AngleUnit.Degree AngleUnit.Radian () =
      Except.error 0 :=
  (convert_value_error_propagation failOps ()).1 AngleUnit.Radian 0 rfl

/-- C4: for every operation structure (even one whose every operation
fails) and every value, `convert_value(Radian, Radian, v)` is exactly
`Ok(v)`: the identity path invokes no arithmetic at all. -/
theorem convert_value_radian_radian_id {V E : Type} (ops : ValueOps V E)
    (v : V) :
    AngleUnit.convert_value ops AngleUnit.Radian AngleUnit.Radian v =
      Except.ok v := rfl

/-- C5: after `B.join_with(A)`, every binding of A is present in the
result with A's definition (A wins on collision), every identifier
unbound in A keeps B's binding, and the settings are B's. The other
context is taken by shared reference in the source, so in this pure
embedding it is unmodified by construction. The uniqueness hypotheses
are the `HashMap` key invariant, which every context built through the
API satisfies. -/
theorem join_with_merge_semantics {Expr : Type} (B A : Context Expr)
    (hf : (A.functions.map Prod.fst).Nodup)
    (hv : (A.vars.map Prod.fst).Nodup) :
    (∀ k v, A.get_function k = some v →
      (B.join_with A).get_function k = some v) ∧
    (∀ k, A.get_function k = none →
      (B.join_with A).get_function k = B.get_function k) ∧
    (∀ k v, A.get_var k = some v → (B.join_with A).get_var k = some v) ∧
    (∀ k, A.get_var k = none → (B.join_with A).get_var k = B.get_var k) ∧
    (B.join_with A).rounding = B.rounding ∧
    (B.join_with A).angle_unit = B.angle_unit ∧
    (B.join_with A).depth_limit = B.depth_limit := by
  have hfun : ∀ k, (B.join_with A).get_function k =
      optOr (A.get_function k) (B.get_function k) := by
    intro k
    rw [get_function_join_with, mapFind_reverse_of_nodup _ _ hf]
    rfl
  have hvar : ∀ k, (B.join_with A).get_var k =
      optOr (A.get_var k) (B.get_var k) := by
    intro k
    rw [get_var_join_with, mapFind_reverse_of_nodup _ _ hv]
    rfl
  refine ⟨?_, ?_, ?_, ?_, ?_, ?_, ?_⟩
  · intro k v h; rw [hfun k, h]; rfl
  · intro k h; rw [hfun k, h]; rfl
  · intro k v h; rw [hvar k, h]; rfl
  · intro k h; rw [hvar k, h]; rfl
  · rw [join_with_eq]
  · rw [join_with_eq]
  · rw [join_with_eq]

/-- A sample library context binding the function `g`. -/
def ctxA : Context Nat :=
  (Context.default Nat).add_function "g" ["x"] 1

/-- A sample session context binding `g` (with a different body) and
`h`. -/
def ctxB : Context Nat :=
  ((Context.default Nat).add_function "g" ["y"] 2).add_function "h" [] 3

/-- Witness for C5 at the sample contexts: after the join, A's `g`
wins. -/
theorem join_with_merge_semantics_witness :
    (ctxB.join_with ctxA).get_function "g" = some (["x"], 1) :=
  (join_with_merge_semantics ctxB ctxA (by decide) (by decide)).1
    "g" (["x"], 1) (by decide)

/-- C6: inserting under an existing key silently replaces the previous
binding: after two `add_function` calls with the same identifier,
`get_function` returns only the second binding; symmetrically for
`add_variable`/`get_var`. -/
theorem add_overwrites_existing_binding {Expr : Type} (c : Context Expr)
    (f : String) (xps yps : List String) (b1 b2 : Expr) (e1 e2 : Expr) :
    ((c.add_function f xps b1).add_function f yps b2).get_function f =
      some (yps, b2) ∧
    ((c.add_variable f e1).add_variable f e2).get_var f = some e2 := by
  constructor <;>
    simp [Context.add_function, Context.add_variable, Context.get_function,
      Context.get_var, mapFind_mapInsert]

/-- C7: default construction yields empty mappings, rounding
`Round(8)`, angle unit `Radian` and depth limit `Limit(49)`. -/
theorem default_context_fields (Expr : Type) :
    (Context.default Expr).functions = [] ∧
    (Context.default Expr).vars = [] ∧
    (Context.default Expr).rounding = Rounding.Round 8 ∧
    (Context.default Expr).angle_unit = AngleUnit.Radian ∧
    (Context.default Expr).depth_limit = DepthLimit.Limit 49 :=
  ⟨rfl, rfl, rfl, rfl, rfl⟩

/-- C8: lookup of an unbound identifier returns `none` (the lookup
functions are total into `Option`, so no failure is possible), and the
membership tests hold exactly when the corresponding lookup succeeds. -/
theorem lookup_unbound_and_membership {Expr : Type} (c : Context Expr)
    (ident : String) :
    (ident ∉ c.functions.map Prod.fst → c.get_function ident = none) ∧
    (ident ∉ c.vars.map Prod.fst → c.get_var ident = none) ∧
    (c.is_function ident = true ↔ ∃ v, c.get_function ident = some v) ∧
    (c.is_var ident = true ↔ ∃ v, c.get_var ident = some v) := by
  refine ⟨fun h => mapFind_eq_none_of_not_mem _ _ h,
    fun h => mapFind_eq_none_of_not_mem _ _ h, ?_, ?_⟩
  · exact Option.isSome_iff_exists
  · exact Option.isSome_iff_exists

/-- Witness for C8: in the default context (which binds nothing) the
lookup of `"z"` is empty. -/
theorem lookup_unbound_and_membership_witness :
    (Context.default Nat).get_function "z" = none :=
  (lookup_unbound_and_membership (Context.default Nat) "z").1 (by decide)

/-- C9: the function and variable namespaces are independent:
`add_function` leaves every variable lookup and all three settings
unchanged, `add_variable` leaves every function lookup and the settings
unchanged, and the same identifier can be bound as a function and as a
variable simultaneously. -/
theorem function_variable_namespaces_independent {Expr : Type}
    (c : Context Expr) (i j : String) (ps : List String) (b e : Expr) :
    (c.add_function i ps b).get_var j = c.get_var j ∧
    (c.add_function i ps b).rounding = c.rounding ∧
    (c.add_function i ps b).angle_unit = c.angle_unit ∧
    (c.add_function i ps b).depth_limit = c.depth_limit ∧
    (c.add_variable i e).get_function j = c.get_function j ∧
    (c.add_variable i e).rounding = c.rounding ∧
    (c.add_variable i e).angle_unit = c.angle_unit ∧
    (c.add_variable i e).depth_limit = c.depth_limit ∧
    ((c.add_function i ps b).add_variable i e).is_function i = true ∧
    ((c.add_function i ps b).add_variable i e).is_var i = true := by
  refine ⟨rfl, rfl, rfl, rfl, rfl, rfl, rfl, rfl, ?_, ?_⟩ <;>
    simp [Context.is_function, Context.is_var, Context.get_function,
      Context.get_var, Context.add_function, Context.add_variable,
      mapFind_mapInsert]

/-- C10: joining with the same context a second time changes nothing
observable: every function lookup, every variable lookup and the
settings agree with a single join. (The mappings are `HashMap`s, whose
identity is their key-to-value association.) -/
theorem join_with_second_application_idempotent {Expr : Type}
    (B A : Context Expr) (k : String) :
    ((B.join_with A).join_with A).get_function k =
      (B.join_with A).get_function k ∧
    ((B.join_with A).join_with A).get_var k = (B.join_with A).get_var k ∧
    ((B.join_with A).join_with A).rounding = (B.join_with A).rounding ∧
    ((B.join_with A).join_with A).angle_unit =
      (B.join_with A).angle_unit ∧
    ((B.join_with A).join_with A).depth_limit =
      (B.join_with A).depth_limit := by
  refine ⟨?_, ?_, ?_, ?_, ?_⟩
  · rw [get_function_join_with (B.join_with A) A k,
      get_function_join_with B A k, optOr_self_absorb]
  · rw [get_var_join_with (B.join_with A) A k,
      get_var_join_with B A k, optOr_self_absorb]
  · rw [join_with_eq (B.join_with A) A]
  · rw [join_with_eq (B.join_with A) A]
  · rw [join_with_eq (B.join_with A) A]
